import Mathlib

/-!
Verification of the MongoDB MCP server (request dispatch and dynamic query
translation layer) against its natural-language specification.

The development shallowly embeds the server's code:

* JavaScript runtime values that can appear in documents or parsed JSON are
  modelled by the inductive type `JSVal` (including the distinguished
  `undefined` value).
* `JSON.parse` is modelled by the executable fuel-based parser `jsonParse`,
  following the standard JSON grammar accepted by the JavaScript builtin
  (failure is `none`, mirroring a thrown `SyntaxError`).
* The schema inference routine `inferSchema` is a direct translation of the
  server's `inferSchema` method.
* The tool dispatcher (`CallToolRequestSchema` handler) is modelled by
  `dispatchTool`, with the backing MongoDB driver abstracted as an oracle
  (`StoreBehavior`) and every driver interaction recorded in a trace of
  `StoreOp` values.
* The lazy connection logic `connectToMongoDB` is modelled twice, at two
  granularities: `connectToMongoDB` as a sequential call (used by the
  dispatcher model) and `stepCaller`/`runSched` as a small-step interleaving
  of concurrent callers suspended at the `await` points of the original
  async function.
-/

/-- Distinguished characters, named to keep the embedding readable. -/
def quoteChar : Char := Char.ofNat 34

/-- The opening curly brace character. -/
def lbraceChar : Char := Char.ofNat 123

/-- The closing curly brace character. -/
def rbraceChar : Char := Char.ofNat 125

/-- The backslash character. -/
def backslashChar : Char := Char.ofNat 92

/-- JavaScript runtime values as they can occur in documents returned by the
MongoDB driver or produced by `JSON.parse`: `undefined`, `null`, booleans,
numbers (kept as their source lexeme), strings, arrays, and plain objects
(ordered field lists, mirroring JavaScript insertion-ordered string keys). -/
inductive JSVal
| undef : JSVal
| null : JSVal
| boolean (b : Bool) : JSVal
| number (lex : String) : JSVal
| string (s : String) : JSVal
| array (xs : List JSVal) : JSVal
| object (fields : List (String × JSVal)) : JSVal

/-- `typeof`-based classification used by `inferSchema`
(`Array.isArray(value) ? "array" : value === null ? "null" :
typeof value === "object" ? "object" : typeof value`). -/
def classifyType : JSVal → String
| JSVal.array _ => "array"
| JSVal.null => "null"
| JSVal.object _ => "object"
| JSVal.number _ => "number"
| JSVal.string _ => "string"
| JSVal.boolean _ => "boolean"
| JSVal.undef => "undefined"

/-- The per-field schema descriptor built by `inferSchema`:
`\x7b type, examples \x7d`. -/
structure FieldSchema where
  type : String
  examples : List JSVal

/-- A sampled document: a JavaScript object, i.e. an insertion-ordered
association list of string keys to values (`Object.keys` enumeration order). -/
abbrev JSDoc := List (String × JSVal)

/-- Association-list lookup on the schema object under construction
(`schema[key]`). -/
def getEntry? (key : String) : List (String × FieldSchema) → Option FieldSchema
| [] => none
| (k, fs) :: rest => if k = key then some fs else getEntry? key rest

/-- Update the entry for `key` in place, leaving everything else unchanged
(mutation of `schema[key]` in the source). -/
def updateEntry (key : String) (g : FieldSchema → FieldSchema) :
    List (String × FieldSchema) → List (String × FieldSchema)
| [] => []
| (k, fs) :: rest =>
  (k, if k = key then g fs else fs) :: updateEntry key g rest

/-- `value !== null && value !== undefined`: whether a value may be appended
to the example list. -/
def exampleOk : JSVal → Bool
| JSVal.null => false
| JSVal.undef => false
| _ => true

/-- One step of `inferSchema`'s inner loop, for a single `key`/`value` pair:
create the descriptor on first encounter (`if (!schema[key]) schema[key] =
\x7b type, examples: [] \x7d`), then push the value onto the example list when
it holds fewer than 3 entries and the value is neither null nor undefined. -/
def addValue (schema : List (String × FieldSchema)) (key : String)
    (value : JSVal) : List (String × FieldSchema) :=
  let s1 := if (getEntry? key schema).isSome then schema
    else schema ++ [(key, FieldSchema.mk (classifyType value) [])]
  updateEntry key
    (fun fs =>
      if fs.examples.length < 3 && exampleOk value then
        FieldSchema.mk fs.type (fs.examples ++ [value])
      else fs) s1

/-- The fold of `addValue` over a flat stream of key/value pairs. -/
def buildSchema (pairs : List (String × JSVal)) : List (String × FieldSchema) :=
  pairs.foldl (fun s kv => addValue s kv.1 kv.2) []

/-- The server's `inferSchema(documents)`: returns the empty schema for an
empty sample, otherwise folds every field of every document (in order)
through `addValue`. -/
def inferSchema (documents : List JSDoc) : List (String × FieldSchema) :=
  if documents.isEmpty then []
  else documents.foldl (fun sch doc => doc.foldl (fun s kv => addValue s kv.1 kv.2) sch) []

/-! ## A model of `JSON.parse` -/

/-- JSON insignificant whitespace. -/
def isJsonWs (c : Char) : Bool :=
  c = ' ' || c = Char.ofNat 9 || c = Char.ofNat 10 || c = Char.ofNat 13

/-- Skip insignificant whitespace. -/
def skipWs (cs : List Char) : List Char := cs.dropWhile isJsonWs

/-- Hexadecimal digit value, if any. -/
def hexVal? (c : Char) : Option Nat :=
  if c.isDigit then some (c.toNat - 48)
  else if 'a' ≤ c && c ≤ 'f' then some (c.toNat - 87)
  else if 'A' ≤ c && c ≤ 'F' then some (c.toNat - 55)
  else none

/-- Body of a JSON string literal (after the opening quote): collects
characters until the closing quote, handling the JSON escape sequences.
Control characters below U+0020 are rejected, as by `JSON.parse`. -/
def parseStringBody : Nat → List Char → List Char → Option (List Char × List Char)
| 0, _, _ => none
| _ + 1, [], _ => none
| fuel + 1, c :: rest, acc =>
  if c = quoteChar then some (acc.reverse, rest)
  else if c = backslashChar then
    match rest with
    | [] => none
    | e :: rest2 =>
      if e = quoteChar then parseStringBody fuel rest2 (quoteChar :: acc)
      else if e = backslashChar then parseStringBody fuel rest2 (backslashChar :: acc)
      else if e = '/' then parseStringBody fuel rest2 ('/' :: acc)
      else if e = 'b' then parseStringBody fuel rest2 (Char.ofNat 8 :: acc)
      else if e = 'f' then parseStringBody fuel rest2 (Char.ofNat 12 :: acc)
      else if e = 'n' then parseStringBody fuel rest2 (Char.ofNat 10 :: acc)
      else if e = 'r' then parseStringBody fuel rest2 (Char.ofNat 13 :: acc)
      else if e = 't' then parseStringBody fuel rest2 (Char.ofNat 9 :: acc)
      else if e = 'u' then
        match rest2 with
        | h1 :: h2 :: h3 :: h4 :: rest3 =>
          match hexVal? h1, hexVal? h2, hexVal? h3, hexVal? h4 with
          | some a, some b, some c3, some d =>
            parseStringBody fuel rest3
              (Char.ofNat (((a * 16 + b) * 16 + c3) * 16 + d) :: acc)
          | _, _, _, _ => none
        | _ => none
      else none
  else if c.toNat < 32 then none
  else parseStringBody fuel rest (c :: acc)

/-- Longest digit run at the head of the input. -/
def spanDigits (cs : List Char) : List Char × List Char :=
  (cs.takeWhile Char.isDigit, cs.dropWhile Char.isDigit)

/-- Lexeme of a JSON number (`-?(0|[1-9][0-9]*)(\.[0-9]+)?([eE][+-]?[0-9]+)?`),
returned together with the remaining input; `none` when the input does not
start with a number. -/
def parseNumberLex (cs : List Char) : Option (List Char × List Char) :=
  let signed := match cs with
    | c :: r => if c = '-' then some ([c], r) else some (([] : List Char), cs)
    | [] => none
  match signed with
  | none => none
  | some (sign, cs1) =>
    match cs1 with
    | [] => none
    | c :: r =>
      if c = '0' then
        let intPart := sign ++ [c]
        some (intLex r intPart)
      else if c.isDigit then
        let p := spanDigits cs1
        some (intLex p.2 (sign ++ p.1))
      else none
where
  /-- Extend the integer lexeme with optional fraction and exponent parts. -/
  intLex (rest : List Char) (lex : List Char) : List Char × List Char :=
    let afterFrac := match rest with
      | c :: r2 =>
        if c = '.' then
          let p := spanDigits r2
          if p.1.isEmpty then (lex, rest) else (lex ++ [c] ++ p.1, p.2)
        else (lex, rest)
      | [] => (lex, rest)
    match afterFrac.2 with
    | c :: r2 =>
      if c = 'e' || c = 'E' then
        let signedTail := match r2 with
          | d :: r3 => if d = '+' || d = '-' then ([d], r3) else (([] : List Char), r2)
          | [] => (([] : List Char), r2)
        let p := spanDigits signedTail.2
        if p.1.isEmpty then afterFrac
        else (afterFrac.1 ++ [c] ++ signedTail.1 ++ p.1, p.2)
      else afterFrac
    | [] => afterFrac

mutual

/-- Recursive-descent JSON value parser (fuel-indexed). -/
def parseValue : Nat → List Char → Option (JSVal × List Char)
| 0, _ => none
| fuel + 1, cs =>
  match skipWs cs with
  | [] => none
  | c :: rest =>
    if c = quoteChar then
      (parseStringBody (rest.length + 1) rest []).map
        (fun p => (JSVal.string (String.mk p.1), p.2))
    else if c = lbraceChar then
      match skipWs rest with
      | [] => none
      | d :: rest2 =>
        if d = rbraceChar then some (JSVal.object [], rest2)
        else
          (parseMembers fuel (skipWs rest)).map
            (fun p => (JSVal.object p.1, p.2))
    else if c = '[' then
      match skipWs rest with
      | [] => none
      | d :: rest2 =>
        if d = ']' then some (JSVal.array [], rest2)
        else
          (parseElems fuel (skipWs rest)).map
            (fun p => (JSVal.array p.1, p.2))
    else if c = 't' then
      match rest with
      | 'r' :: 'u' :: 'e' :: r => some (JSVal.boolean true, r)
      | _ => none
    else if c = 'f' then
      match rest with
      | 'a' :: 'l' :: 's' :: 'e' :: r => some (JSVal.boolean false, r)
      | _ => none
    else if c = 'n' then
      match rest with
      | 'u' :: 'l' :: 'l' :: r => some (JSVal.null, r)
      | _ => none
    else
      match parseNumberLex (c :: rest) with
      | some (lex, r) => some (JSVal.number (String.mk lex), r)
      | none => none

/-- One-or-more comma-separated array elements, up to the closing bracket. -/
def parseElems : Nat → List Char → Option (List JSVal × List Char)
| 0, _ => none
| fuel + 1, cs =>
  match parseValue fuel cs with
  | none => none
  | some (v, rest) =>
    match skipWs rest with
    | [] => none
    | c :: rest2 =>
      if c = ',' then (parseElems fuel rest2).map (fun p => (v :: p.1, p.2))
      else if c = ']' then some ([v], rest2)
      else none

/-- One-or-more comma-separated object members, up to the closing brace. -/
def parseMembers : Nat → List Char → Option (List (String × JSVal) × List Char)
| 0, _ => none
| fuel + 1, cs =>
  match skipWs cs with
  | [] => none
  | c :: rest =>
    if c = quoteChar then
      match parseStringBody (rest.length + 1) rest [] with
      | none => none
      | some (key, rest2) =>
        match skipWs rest2 with
        | [] => none
        | d :: rest3 =>
          if d = ':' then
            match parseValue fuel rest3 with
            | none => none
            | some (v, rest4) =>
              match skipWs rest4 with
              | [] => none
              | e :: rest5 =>
                if e = ',' then
                  (parseMembers fuel rest5).map
                    (fun p => ((String.mk key, v) :: p.1, p.2))
                else if e = rbraceChar then some ([(String.mk key, v)], rest5)
                else none
          else none
    else none

end

/-- Model of the JavaScript builtin `JSON.parse`: `none` corresponds to a
thrown `SyntaxError`. -/
def jsonParse (s : String) : Option JSVal :=
  match parseValue (2 * s.length + 2) s.toList with
  | some (v, rest) => if (skipWs rest).isEmpty then some v else none
  | none => none


/-! ## JavaScript truthiness and defaulting helpers -/

/-- Truthiness of an optional string argument (`filter ? ... : ...`):
`undefined` and the empty string are falsy. -/
def jsTruthyStr : Option String → Bool
| none => false
| some s => !s.isEmpty

/-- Whether a JSON number lexeme denotes zero (its mantissa digits are all
zero), i.e. the resulting JavaScript number is falsy. -/
def numLexIsZero (lex : String) : Bool :=
  (lex.toList.takeWhile (fun c => c ≠ 'e' && c ≠ 'E')).all
    (fun c => c = '0' || c = '-' || c = '.')

/-- JavaScript falsiness of a runtime value. -/
def jsFalsy : JSVal → Bool
| JSVal.undef => true
| JSVal.null => true
| JSVal.boolean b => !b
| JSVal.number lex => numLexIsZero lex
| JSVal.string s => s.isEmpty
| JSVal.array _ => false
| JSVal.object _ => false

/-- `x || d` on an optional value (`undefined` modelled as `none`). -/
def jsOrElse (v : Option JSVal) (d : JSVal) : JSVal :=
  match v with
  | none => d
  | some x => if jsFalsy x then d else x

/-- `x || d` on a plain value. -/
def jsOr (x d : JSVal) : JSVal := if jsFalsy x then d else x

/-- `n || d` on an optional integer-valued number argument: `undefined` and
`0` are falsy and give the default, every other value passes through. -/
def jsOrIntDefault (v : Option Int) (d : Int) : Int :=
  match v with
  | none => d
  | some n => if n = 0 then d else n

/-- JavaScript property access `v.key` on a parsed value: `undefined` for
missing fields and non-objects. -/
def jsGet : JSVal → String → JSVal
| JSVal.object fields, key => jsGetFields fields key
| _, _ => JSVal.undef
where
  /-- First binding of `key` in a field list. -/
  jsGetFields : List (String × JSVal) → String → JSVal
  | [], _ => JSVal.undef
  | (k, v) :: rest, key => if k = key then v else jsGetFields rest key

/-! ## Credential redaction: `uri.replace(/\/\/.*@/, "//***@")` -/

/-- JavaScript line terminators, which `.` in a regex never matches. -/
def isLineTerm (c : Char) : Bool :=
  c = Char.ofNat 10 || c = Char.ofNat 13 || c = Char.ofNat 0x2028 || c = Char.ofNat 0x2029

/-- Index of the last at-sign in a character list, if any. -/
def lastAtSign : List Char → Option Nat
| [] => none
| c :: rest =>
  match lastAtSign rest with
  | some i => some (i + 1)
  | none => if c = '@' then some 0 else none

/-- If the regex `\/\/.*@` matches at the head of `cs` (two slashes, then a
greedy run of non-line-terminator characters ending at the last reachable
at-sign), return the input remaining after the match. -/
def matchCredsAt (cs : List Char) : Option (List Char) :=
  match cs with
  | c1 :: c2 :: rest =>
    if c1 = '/' && c2 = '/' then
      match lastAtSign (rest.takeWhile (fun c => !isLineTerm c)) with
      | some i => some (rest.drop (i + 1))
      | none => none
    else none
  | _ => none

/-- `String.prototype.replace` with the pattern `/\/\/.*@/` and replacement
`"//***@"`: rewrite the leftmost match, keep everything else. -/
def redactChars : List Char → List Char
| [] => []
| c :: rest =>
  match matchCredsAt (c :: rest) with
  | some tail => '/' :: '/' :: '*' :: '*' :: '*' :: '@' :: tail
  | none => c :: redactChars rest

/-- `MONGODB_URI.replace(/\/\/.*@/, "//***@")`, as used in the
`mongodb_list_databases` payload, the `mongodb_verify_connection` payload and
the connection-failure diagnostic envelope. -/
def redactUri (s : String) : String := String.mk (redactChars s.toList)


/-! ## The store gateway trace model -/

/-- One interaction with the MongoDB driver.  `connect` and `ping` are the
connection-establishment steps of `connectToMongoDB`; the others correspond
to the driver calls made by the request handlers. -/
inductive StoreOp
| connect : StoreOp
| ping : StoreOp
| find (collection : String) (filter : JSVal) (projection : Option JSVal)
    (sort : JSVal) (skip : Int) (limit : Int) : StoreOp
| countDocuments (collection : String) (filter : JSVal) : StoreOp
| aggregate (collection : String) (pipeline : JSVal) : StoreOp
| distinct (collection : String) (field : String) (filter : JSVal) : StoreOp
| listDatabases : StoreOp
| listCollections (database : String) : StoreOp
| collStats (database : String) (collection : String) : StoreOp
| sampleFind (collection : String) (limit : Nat) : StoreOp
| serverStatus : StoreOp
| dbStats : StoreOp

/-- Whether a trace entry is a data operation (anything other than the
connection-establishment steps `connect` and `ping`). -/
def StoreOp.isDataOp : StoreOp → Bool
| StoreOp.connect => false
| StoreOp.ping => false
| _ => true

/-- The backing store as a deterministic oracle: the response the driver
would give to each operation (`Except.error` models a rejected promise). -/
structure StoreBehavior where
  findR : String → JSVal → Option JSVal → JSVal → Int → Int → Except String (List JSVal)
  countR : String → JSVal → Except String Int
  aggregateR : String → JSVal → Except String (List JSVal)
  distinctR : String → String → JSVal → Except String (List JSVal)
  listDatabasesR : Except String (List (String × Int × Bool))
  listCollectionsR : String → Except String (List (String × String))
  collStatsR : String → String → Except String JSVal
  sampleFindR : String → Except String (List JSDoc)
  serverStatusR : Except String JSVal
  dbStatsR : Except String JSVal

/-- A test double for the store: every operation succeeds with an empty or
trivial result. -/
def stubStore : StoreBehavior :=
  StoreBehavior.mk (fun _ _ _ _ _ _ => Except.ok []) (fun _ _ => Except.ok 0)
    (fun _ _ => Except.ok []) (fun _ _ _ => Except.ok []) (Except.ok [])
    (fun _ => Except.ok []) (fun _ _ => Except.ok JSVal.null)
    (fun _ => Except.ok []) (Except.ok JSVal.null) (Except.ok JSVal.null)

/-! ## Lazy connection establishment (`connectToMongoDB`) -/

/-- The connection-relevant fields of the server object: whether
`this.client` and `this.db` are non-null. -/
structure ConnSt where
  client : Bool
  db : Bool
deriving DecidableEq

/-- Environment outcome of one underlying connection attempt: the driver
`connect()` call and the subsequent admin `ping` each either succeed or
reject. -/
inductive ConnectOutcome
| ok : ConnectOutcome
| connectFails (msg : String) : ConnectOutcome
| pingFails (msg : String) : ConnectOutcome

/-- `connectToMongoDB()` as a sequential call: when `this.client` is already
set the method returns immediately; otherwise it assigns `this.client`
(before awaiting `connect()`), attempts the connection and the ping, sets
`this.db` on success, and on any failure rethrows a wrapped error, leaving
`this.client` assigned and `this.db` null. The returned list records the
driver interactions issued. -/
def connectToMongoDB (st : ConnSt) (oc : ConnectOutcome) :
    ConnSt × Except String Unit × List StoreOp :=
  if st.client then (st, Except.ok (), [])
  else
    match oc with
    | ConnectOutcome.ok =>
      (ConnSt.mk true true, Except.ok (), [StoreOp.connect, StoreOp.ping])
    | ConnectOutcome.connectFails m =>
      (ConnSt.mk true false, Except.error ("MongoDB connection failed: " ++ m),
        [StoreOp.connect])
    | ConnectOutcome.pingFails m =>
      (ConnSt.mk true false, Except.error ("MongoDB connection failed: " ++ m),
        [StoreOp.connect, StoreOp.ping])

/-- The JavaScript `TypeError` raised when a handler dereferences
`this.db!` while `this.db` is still null. -/
def nullDbError : String := "TypeError: Cannot read properties of null"

/-! ## The call-operation dispatcher -/

/-- The loosely-typed argument bag of a tool call, with one slot per argument
name that any catalog operation reads (`request.params.arguments as ...`). -/
structure ToolArgs where
  collection : String
  filter : Option String
  projection : Option String
  sort : Option String
  pipeline : String
  field : String
  database : Option String
  limit : Option Int
  skip : Option Int

/-- An incoming call-operation request: operation name plus argument bag. -/
structure ToolRequest where
  name : String
  args : ToolArgs

/-- Argument bag for a `mongodb_query` call. -/
def queryArgs (collection : String) (filter projection sort : Option String)
    (limit skip : Option Int) : ToolArgs :=
  ToolArgs.mk collection filter projection sort ("") ("") none limit skip

/-- `x ? JSON.parse(x) : \x7b\x7d` on an optional fragment text (the
`filter` decode step of query, count and distinct). -/
def parseOrEmptyObj (o : Option String) : Except String JSVal :=
  if jsTruthyStr o then
    match jsonParse (o.getD ("")) with
    | some v => Except.ok v
    | none => Except.error ("SyntaxError: Unexpected token in JSON")
  else Except.ok (JSVal.object [])

/-- `x ? JSON.parse(x) : undefined` on an optional fragment text (the
`projection` and `sort` decode steps of query). -/
def parseOrUndef (o : Option String) : Except String (Option JSVal) :=
  if jsTruthyStr o then
    match jsonParse (o.getD ("")) with
    | some v => Except.ok (some v)
    | none => Except.error ("SyntaxError: Unexpected token in JSON")
  else Except.ok none

/-- The `mongodb_query` case of the tool switch.  The collection handle is
taken from `this.db!` first (a `TypeError` if the namespace handle is null),
then the filter, projection and sort fragments are decoded, and a single
`find` is issued with `sort(sortObj || \x7b\x7d)`, `skip(skip || 0)` and
`limit(limit || 100)`. -/
def handleQuery (st : ConnSt) (a : ToolArgs) (store : StoreBehavior) :
    Except String JSVal × List StoreOp :=
  if !st.db then (Except.error nullDbError, [])
  else
    match parseOrEmptyObj a.filter with
    | Except.error e => (Except.error e, [])
    | Except.ok filterObj =>
      match parseOrUndef a.projection with
      | Except.error e => (Except.error e, [])
      | Except.ok projectionObj =>
        match parseOrUndef a.sort with
        | Except.error e => (Except.error e, [])
        | Except.ok sortObj =>
          let sortArg := jsOrElse sortObj (JSVal.object [])
          let skipArg := jsOrIntDefault a.skip 0
          let limitArg := jsOrIntDefault a.limit 100
          let op := StoreOp.find a.collection filterObj projectionObj sortArg skipArg limitArg
          match store.findR a.collection filterObj projectionObj sortArg skipArg limitArg with
          | Except.error e => (Except.error e, [op])
          | Except.ok results =>
            (Except.ok (JSVal.object
              [("collection", JSVal.string a.collection),
               ("count", JSVal.number (toString results.length)),
               ("results", JSVal.array results)]), [op])

/-- The `mongodb_count` case: decode the filter, issue `countDocuments`. -/
def handleCount (st : ConnSt) (a : ToolArgs) (store : StoreBehavior) :
    Except String JSVal × List StoreOp :=
  if !st.db then (Except.error nullDbError, [])
  else
    match parseOrEmptyObj a.filter with
    | Except.error e => (Except.error e, [])
    | Except.ok filterObj =>
      let op := StoreOp.countDocuments a.collection filterObj
      match store.countR a.collection filterObj with
      | Except.error e => (Except.error e, [op])
      | Except.ok n =>
        (Except.ok (JSVal.object
          [("collection", JSVal.string a.collection),
           ("filter", filterObj),
           ("count", JSVal.number (toString n))]), [op])

/-- The `mongodb_aggregate` case: `JSON.parse(pipeline)` is applied
unconditionally to the pipeline text, and the parsed value is passed to
`aggregate` with no shape check. -/
def handleAggregate (st : ConnSt) (a : ToolArgs) (store : StoreBehavior) :
    Except String JSVal × List StoreOp :=
  if !st.db then (Except.error nullDbError, [])
  else
    match jsonParse a.pipeline with
    | none => (Except.error ("SyntaxError: Unexpected token in JSON"), [])
    | some pipelineObj =>
      let op := StoreOp.aggregate a.collection pipelineObj
      match store.aggregateR a.collection pipelineObj with
      | Except.error e => (Except.error e, [op])
      | Except.ok results =>
        (Except.ok (JSVal.object
          [("collection", JSVal.string a.collection),
           ("pipeline", pipelineObj),
           ("results", JSVal.array results)]), [op])

/-- The `mongodb_distinct` case: decode the filter, issue `distinct`. -/
def handleDistinct (st : ConnSt) (a : ToolArgs) (store : StoreBehavior) :
    Except String JSVal × List StoreOp :=
  if !st.db then (Except.error nullDbError, [])
  else
    match parseOrEmptyObj a.filter with
    | Except.error e => (Except.error e, [])
    | Except.ok filterObj =>
      let op := StoreOp.distinct a.collection a.field filterObj
      match store.distinctR a.collection a.field filterObj with
      | Except.error e => (Except.error e, [op])
      | Except.ok values =>
        (Except.ok (JSVal.object
          [("collection", JSVal.string a.collection),
           ("field", JSVal.string a.field),
           ("distinctValues", JSVal.array values),
           ("count", JSVal.number (toString values.length))]), [op])

/-- The success payload of `mongodb_list_databases`: the connection URI is
included only after credential redaction. -/
def listDatabasesPayload (uri dbName : String)
    (dbs : List (String × Int × Bool)) : JSVal :=
  JSVal.object
    [("currentDatabase", JSVal.string dbName),
     ("connectionUri", JSVal.string (redactUri uri)),
     ("databases", JSVal.array (dbs.map (fun d =>
       JSVal.object [("name", JSVal.string d.1),
         ("sizeOnDisk", JSVal.number (toString d.2.1)),
         ("empty", JSVal.boolean d.2.2)])))]

/-- The `mongodb_list_databases` case: uses `this.client!` (not `this.db!`),
issues `listDatabases` against the admin database. -/
def handleListDatabases (uri dbName : String) (store : StoreBehavior) :
    Except String JSVal × List StoreOp :=
  match store.listDatabasesR with
  | Except.error e => (Except.error e, [StoreOp.listDatabases])
  | Except.ok dbs => (Except.ok (listDatabasesPayload uri dbName dbs), [StoreOp.listDatabases])

/-- The `mongodb_list_collections` case: pick the target database
(`database ? this.client!.db(database) : this.db!`), list its collections,
then fetch stats for each one, each stats failure caught individually. -/
def handleListCollections (st : ConnSt) (dbName : String) (a : ToolArgs)
    (store : StoreBehavior) : Except String JSVal × List StoreOp :=
  if !(jsTruthyStr a.database) && !st.db then (Except.error nullDbError, [])
  else
    let target := if jsTruthyStr a.database then a.database.getD ("") else dbName
    match store.listCollectionsR target with
    | Except.error e => (Except.error e, [StoreOp.listCollections target])
    | Except.ok cols =>
      let entries := cols.map (fun col =>
        match store.collStatsR target col.1 with
        | Except.ok stats =>
          JSVal.object [("name", JSVal.string col.1), ("type", JSVal.string col.2),
            ("count", jsOr (jsGet stats ("count")) (JSVal.number ("0"))),
            ("size", jsOr (jsGet stats ("size")) (JSVal.number ("0"))),
            ("avgObjSize", jsOr (jsGet stats ("avgObjSize")) (JSVal.number ("0")))]
        | Except.error _ =>
          JSVal.object [("name", JSVal.string col.1), ("type", JSVal.string col.2),
            ("error", JSVal.string ("Could not retrieve stats"))])
      (Except.ok (JSVal.object
        [("database", JSVal.string target),
         ("totalCollections", JSVal.number (toString cols.length)),
         ("collections", JSVal.array entries)]),
        StoreOp.listCollections target :: cols.map (fun col => StoreOp.collStats target col.1))

/-- The `mongodb_verify_connection` case: `serverStatus` and `dbStats`
through `this.db!`, with the redacted connection URI in the payload. -/
def handleVerifyConnection (uri dbName : String) (st : ConnSt)
    (store : StoreBehavior) : Except String JSVal × List StoreOp :=
  if !st.db then (Except.error nullDbError, [])
  else
    match store.serverStatusR with
    | Except.error e => (Except.error e, [StoreOp.serverStatus])
    | Except.ok status =>
      match store.dbStatsR with
      | Except.error e => (Except.error e, [StoreOp.serverStatus, StoreOp.dbStats])
      | Except.ok stats =>
        (Except.ok (JSVal.object
          [("connected", JSVal.boolean true),
           ("connectionUri", JSVal.string (redactUri uri)),
           ("currentDatabase", JSVal.string dbName),
           ("serverInfo", JSVal.object
             [("version", jsGet status ("version")),
              ("uptime", jsGet status ("uptime")),
              ("host", jsGet status ("host"))]),
           ("databaseStats", JSVal.object
             [("collections", jsGet stats ("collections")),
              ("dataSize", jsGet stats ("dataSize")),
              ("storageSize", jsGet stats ("storageSize")),
              ("indexes", jsGet stats ("indexes"))])]),
          [StoreOp.serverStatus, StoreOp.dbStats])

/-- The catalog of operation names recognised by the tool switch. -/
def knownToolNames : List String :=
  [("mongodb_query"), ("mongodb_count"), ("mongodb_aggregate"),
   ("mongodb_distinct"), ("mongodb_list_databases"),
   ("mongodb_list_collections"), ("mongodb_verify_connection")]

/-- The `switch (request.params.name)` of the tool handler; the default case
throws `Unknown tool`. -/
def toolSwitch (uri dbName : String) (st : ConnSt) (req : ToolRequest)
    (store : StoreBehavior) : Except String JSVal × List StoreOp :=
  if req.name = "mongodb_query" then handleQuery st req.args store
  else if req.name = "mongodb_count" then handleCount st req.args store
  else if req.name = "mongodb_aggregate" then handleAggregate st req.args store
  else if req.name = "mongodb_distinct" then handleDistinct st req.args store
  else if req.name = "mongodb_list_databases" then handleListDatabases uri dbName store
  else if req.name = "mongodb_list_collections" then handleListCollections st dbName req.args store
  else if req.name = "mongodb_verify_connection" then handleVerifyConnection uri dbName st store
  else (Except.error ("Unknown tool: " ++ req.name), [])

/-- The uniform result envelope returned by the call-operation dispatcher:
a success payload, the catch-all tool failure (rendered with label
`"Tool Execution Failed"`, the operation name and the message), or the
connection-failure diagnostic (label `"MongoDB Connection Failed"`, message,
redacted URI, database name and a fixed suggestion). -/
inductive Envelope
| success (payload : JSVal) : Envelope
| toolFailure (tool : String) (message : String) : Envelope
| connFailure (message : String) (uri : String) (database : String) : Envelope

/-- The error-kind label carried by an envelope, if it is a failure. -/
def Envelope.errorLabel : Envelope → Option String
| Envelope.success _ => none
| Envelope.toolFailure _ _ => some ("Tool Execution Failed")
| Envelope.connFailure _ _ _ => some ("MongoDB Connection Failed")

/-- The `isError` flag of the rendered response. -/
def Envelope.isError : Envelope → Bool
| Envelope.success _ => false
| _ => true

/-- The complete `CallToolRequestSchema` handler: first `connectToMongoDB`
inside its own try/catch (failure renders the connection diagnostic envelope
with the redacted URI), then the tool switch inside the dispatcher-boundary
try/catch (any raised failure renders the `"Tool Execution Failed"` envelope
naming the operation).  Nothing escapes: the function is total and always
returns an envelope together with the driver trace. -/
def dispatchTool (uri dbName : String) (st : ConnSt) (oc : ConnectOutcome)
    (req : ToolRequest) (store : StoreBehavior) :
    ConnSt × Envelope × List StoreOp :=
  match connectToMongoDB st oc with
  | (st1, Except.error m, ops) =>
    (st1, Envelope.connFailure m (redactUri uri) dbName, ops)
  | (st1, Except.ok _, ops) =>
    match toolSwitch uri dbName st1 req store with
    | (Except.ok payload, ops2) => (st1, Envelope.success payload, ops ++ ops2)
    | (Except.error m, ops2) => (st1, Envelope.toolFailure req.name m, ops ++ ops2)

/-! ## The read-resource handler -/

/-- The resource address parser: the URI must match
`/^mongodb:\/\/([^\/]+)\/(.+)$/` (scheme, a non-empty namespace segment
without slashes, a slash, and a non-empty line-terminator-free remainder
naming the collection). -/
def parseResourceUri (u : String) : Option (String × String) :=
  let cs := u.toList
  if cs.take 10 = ("mongodb://").toList then
    let rest := cs.drop 10
    let dbn := rest.takeWhile (fun c => c ≠ '/')
    let tail := rest.dropWhile (fun c => c ≠ '/')
    match dbn, tail with
    | [], _ => none
    | _, [] => none
    | _, _ :: coll =>
      if coll.isEmpty then none
      else if coll.any isLineTerm then none
      else some (String.mk dbn, String.mk coll)
  else none

/-- Render an inferred schema as the JSON value embedded in the
read-resource payload. -/
def schemaToJSVal (schema : List (String × FieldSchema)) : JSVal :=
  JSVal.object (schema.map (fun kv =>
    (kv.1, JSVal.object [("type", JSVal.string kv.2.type),
      ("examples", JSVal.array kv.2.examples)])))

/-- The `ReadResourceRequestSchema` handler: ensure the connection (its
failure propagates), parse the address (mismatch of shape or namespace
throws before any data operation), then fetch collection stats and up to 5
sample documents and run the schema inferencer. -/
def readResource (dbName : String) (st : ConnSt) (oc : ConnectOutcome)
    (reqUri : String) (store : StoreBehavior) :
    ConnSt × Except String JSVal × List StoreOp :=
  match connectToMongoDB st oc with
  | (st1, Except.error m, ops) => (st1, Except.error m, ops)
  | (st1, Except.ok _, ops) =>
    match parseResourceUri reqUri with
    | none => (st1, Except.error ("Invalid MongoDB URI format"), ops)
    | some (dbn, coll) =>
      if dbn ≠ dbName then
        (st1, Except.error
          ("Database " ++ dbn ++ " does not match connected database " ++ dbName), ops)
      else if !st1.db then (st1, Except.error nullDbError, ops)
      else
        match store.collStatsR dbName coll with
        | Except.error e => (st1, Except.error e, ops ++ [StoreOp.collStats dbName coll])
        | Except.ok stats =>
          match store.sampleFindR coll with
          | Except.error e =>
            (st1, Except.error e,
              ops ++ [StoreOp.collStats dbName coll, StoreOp.sampleFind coll 5])
          | Except.ok docs =>
            (st1, Except.ok (JSVal.object
              [("collection", JSVal.string coll),
               ("stats", JSVal.object
                 [("count", jsGet stats ("count")),
                  ("size", jsGet stats ("size")),
                  ("avgObjSize", jsGet stats ("avgObjSize"))]),
               ("schema", schemaToJSVal (inferSchema docs)),
               ("sampleDocuments", JSVal.array (docs.map JSVal.object))]),
              ops ++ [StoreOp.collStats dbName coll, StoreOp.sampleFind coll 5])

/-! ## Interleaving model of concurrent `connectToMongoDB` callers -/

/-- Program counter of one async caller of `connectToMongoDB`, suspended at
the function's `await` points: `start` (before the `if (!this.client)`
check), `awaitConnect` (suspended on `await this.client.connect()`),
`awaitPing` (suspended on the admin ping), `done` (returned normally) and
`doneErr` (the wrapped connection error was thrown). -/
inductive CallerPC
| start : CallerPC
| awaitConnect : CallerPC
| awaitPing : CallerPC
| done : CallerPC
| doneErr : CallerPC
deriving DecidableEq

/-- Shared mutable state of the interleaving model, plus a counter of
underlying connect attempts started. -/
structure MState where
  client : Bool
  db : Bool
  attempts : Nat
deriving DecidableEq

/-- One scheduler step of a single caller.  The `if (!this.client)` check and
the assignment `this.client = new MongoClient(...)` are a single atomic
segment (no `await` separates them in the source); `res` is the environment's
resolution of the awaited promise (`true` = fulfilled). A caller that
observes `this.client` already set returns immediately — the source has no
shared in-flight future to wait on. -/
def stepCaller (s : MState) (pc : CallerPC) (res : Bool) : MState × CallerPC :=
  match pc with
  | CallerPC.start =>
    if s.client then (s, CallerPC.done)
    else (MState.mk true s.db (s.attempts + 1), CallerPC.awaitConnect)
  | CallerPC.awaitConnect =>
    if res then (s, CallerPC.awaitPing) else (s, CallerPC.doneErr)
  | CallerPC.awaitPing =>
    if res then (MState.mk s.client true s.attempts, CallerPC.done) else (s, CallerPC.doneErr)
  | CallerPC.done => (s, CallerPC.done)
  | CallerPC.doneErr => (s, CallerPC.doneErr)

/-- Execute one scheduled event `(caller index, promise resolution)`. -/
def runStep (cfg : MState × List CallerPC) (ev : Nat × Bool) :
    MState × List CallerPC :=
  match cfg.2[ev.1]? with
  | none => cfg
  | some pc =>
    let r := stepCaller cfg.1 pc ev.2
    (r.1, cfg.2.set ev.1 r.2)

/-- Run a whole schedule of interleaved caller steps. -/
def runSched (cfg : MState × List CallerPC) (sched : List (Nat × Bool)) :
    MState × List CallerPC :=
  sched.foldl runStep cfg

/-- Initial configuration: no connection exists, `n` callers are about to
invoke `connectToMongoDB`. -/
def initCfg (n : Nat) : MState × List CallerPC :=
  (MState.mk false false 0, List.replicate n CallerPC.start)

/-! ## Auxiliary specification-side definitions used to state the claims -/

/-- Argument bag for a `mongodb_count` call. -/
def countArgs (collection : String) (filter : Option String) : ToolArgs :=
  ToolArgs.mk collection filter none none ("") ("") none none none

/-- Argument bag for a `mongodb_aggregate` call. -/
def aggArgs (collection pipeline : String) : ToolArgs :=
  ToolArgs.mk collection none none none pipeline ("") none none none

/-- Argument bag for a `mongodb_distinct` call. -/
def distinctArgs (collection field : String) (filter : Option String) : ToolArgs :=
  ToolArgs.mk collection filter none none ("") field none none none

/-- The six type names the specification allows the Schema Inferencer to
produce. -/
def specTypeNames : List String :=
  [("array"), ("null"), ("object"), ("number"), ("string"), ("boolean")]

/-- Append a key to a discovery-order list unless already present. -/
def insertNew (ks : List String) (k : String) : List String :=
  if k ∈ ks then ks else ks ++ [k]

/-- First-discovery order of the field keys in a stream of key/value pairs. -/
def discoveryOrder (pairs : List (String × JSVal)) : List String :=
  pairs.foldl (fun ks kv => insertNew ks kv.1) []

/-- The value at the first occurrence of `key` in a stream of pairs. -/
def firstVal? (key : String) (pairs : List (String × JSVal)) : Option JSVal :=
  (pairs.find? (fun kv => kv.1 == key)).map (fun kv => kv.2)

/-- A fixed illustrative `mongodb_query` request, used to exercise the
dispatcher on concrete runs. -/
def sampleQueryRequest : ToolRequest :=
  ToolRequest.mk ("mongodb_query") (queryArgs ("users") none none none none none)

/-- The invariant maintained by every interleaving of `connectToMongoDB`
callers: the number of underlying connect attempts started equals one
exactly when the shared `client` field has been assigned, and while the
field is unassigned no caller has progressed past its initial check. -/
def ConnInv (cfg : MState × List CallerPC) : Prop :=
  (cfg.1.attempts = if cfg.1.client then 1 else 0)
  ∧ (cfg.1.client = false → ∀ pc ∈ cfg.2, pc = CallerPC.start)

/-! ## Lemmas about the schema inferencer -/

theorem getEntry?_updateEntry_self (key : String) (g : FieldSchema → FieldSchema)
    (s : List (String × FieldSchema)) :
    getEntry? key (updateEntry key g s) = (getEntry? key s).map g := by
  induction s with
  | nil => rfl
  | cons p rest ih =>
    obtain ⟨k, fs⟩ := p
    by_cases h : k = key
    · simp [getEntry?, updateEntry, h]
    · simp [getEntry?, updateEntry, h, ih]

theorem getEntry?_updateEntry_ne (key k2 : String) (h : key ≠ k2)
    (g : FieldSchema → FieldSchema) (s : List (String × FieldSchema)) :
    getEntry? key (updateEntry k2 g s) = getEntry? key s := by
  induction s with
  | nil => rfl
  | cons p rest ih =>
    obtain ⟨k, fs⟩ := p
    by_cases hk : k = key
    · subst hk
      have : ¬ k = k2 := fun hh => h (hh.symm ▸ rfl)
      simp [getEntry?, updateEntry, this]
    · simp [getEntry?, updateEntry, hk, ih]

theorem getEntry?_append_some (key : String) (fs : FieldSchema)
    (s t : List (String × FieldSchema)) (h : getEntry? key s = some fs) :
    getEntry? key (s ++ t) = some fs := by
  induction s with
  | nil => exact absurd h (by simp [getEntry?])
  | cons p rest ih =>
    obtain ⟨k, fs2⟩ := p
    by_cases hk : k = key
    · simp [getEntry?, hk] at h ⊢
      exact h
    · simp [getEntry?, hk] at h ⊢
      exact ih h

theorem getEntry?_append_none (key : String)
    (s t : List (String × FieldSchema)) (h : getEntry? key s = none) :
    getEntry? key (s ++ t) = getEntry? key t := by
  induction s with
  | nil => rfl
  | cons p rest ih =>
    obtain ⟨k, fs2⟩ := p
    by_cases hk : k = key
    · simp [getEntry?, hk] at h
    · simp [getEntry?, hk] at h ⊢
      exact ih h

theorem map_fst_updateEntry (key : String) (g : FieldSchema → FieldSchema)
    (s : List (String × FieldSchema)) :
    List.map Prod.fst (updateEntry key g s) = List.map Prod.fst s := by
  induction s with
  | nil => rfl
  | cons p rest ih =>
    obtain ⟨k, fs⟩ := p
    simp [updateEntry, ih]

theorem getEntry?_isSome_iff_mem (key : String) (s : List (String × FieldSchema)) :
    (getEntry? key s).isSome = true ↔ key ∈ List.map Prod.fst s := by
  induction s with
  | nil => simp [getEntry?]
  | cons p rest ih =>
    obtain ⟨k, fs⟩ := p
    by_cases hk : k = key
    · subst hk
      simp [getEntry?]
    · simp [getEntry?, hk, ih]
      intro hh
      exact absurd hh.symm hk

theorem getEntry?_addValue_ne (key k : String) (v : JSVal)
    (s : List (String × FieldSchema)) (h : key ≠ k) :
    getEntry? key (addValue s k v) = getEntry? key s := by
  unfold addValue
  by_cases hs : (getEntry? k s).isSome
  · simp only [hs, if_pos]
    exact getEntry?_updateEntry_ne key k h _ s
  · simp only [hs, if_neg, Bool.false_eq_true, not_false_iff]
    rw [getEntry?_updateEntry_ne key k h]
    cases hks : getEntry? key s with
    | some fs => exact getEntry?_append_some key fs s _ hks
    | none =>
      rw [getEntry?_append_none key s _ hks]
      have hne : ¬ k = key := fun hh => h hh.symm
      simp [getEntry?, hne]

theorem getEntry?_addValue_self (k : String) (v : JSVal)
    (s : List (String × FieldSchema)) :
    getEntry? k (addValue s k v) =
      some (match getEntry? k s with
        | some fs =>
          if fs.examples.length < 3 && exampleOk v then
            FieldSchema.mk fs.type (fs.examples ++ [v])
          else fs
        | none =>
          FieldSchema.mk (classifyType v) (if exampleOk v then [v] else [])) := by
  cases hks : getEntry? k s with
  | some fs =>
    simp only [addValue, hks, Option.isSome_some, if_true]
    rw [getEntry?_updateEntry_self k _ s, hks]
    rfl
  | none =>
    simp only [addValue, hks, Option.isSome_none, Bool.false_eq_true, if_false]
    rw [getEntry?_updateEntry_self k]
    rw [getEntry?_append_none k s _ hks]
    simp only [getEntry?, if_pos]
    cases hok : exampleOk v <;> simp [hok]

theorem map_fst_addValue (k : String) (v : JSVal)
    (s : List (String × FieldSchema)) :
    List.map Prod.fst (addValue s k v) = insertNew (List.map Prod.fst s) k := by
  unfold addValue insertNew
  by_cases hs : (getEntry? k s).isSome
  · have hm : k ∈ List.map Prod.fst s := (getEntry?_isSome_iff_mem k s).mp hs
    simp only [hs, if_pos, hm, if_true]
    exact map_fst_updateEntry k _ s
  · have hm : ¬ k ∈ List.map Prod.fst s := by
      intro hmem
      exact hs ((getEntry?_isSome_iff_mem k s).mpr hmem)
    simp only [hs, if_neg, not_false_iff, hm, if_false]
    rw [map_fst_updateEntry]
    simp

theorem inferSchema_eq_buildSchema (docs : List JSDoc) :
    inferSchema docs = buildSchema docs.flatten := by
  cases docs with
  | nil => rfl
  | cons d rest =>
    simp [inferSchema, buildSchema, List.foldl_flatten]

theorem foldl_addValue_type_preserved (pairs : List (String × JSVal)) :
    ∀ (acc : List (String × FieldSchema)) (key : String) (fs : FieldSchema),
    getEntry? key acc = some fs →
    ∃ fs2, getEntry? key (pairs.foldl (fun s kv => addValue s kv.1 kv.2) acc) = some fs2
      ∧ fs2.type = fs.type := by
  induction pairs with
  | nil => exact fun acc key fs h => ⟨fs, h, rfl⟩
  | cons kv rest ih =>
    intro acc key fs h
    obtain ⟨k, v⟩ := kv
    simp only [List.foldl_cons]
    by_cases hk : key = k
    · subst hk
      cases hc : (decide (fs.examples.length < 3) && exampleOk v) with
      | true =>
        exact ih (addValue acc key v) key
          (FieldSchema.mk fs.type (fs.examples ++ [v]))
          (by rw [getEntry?_addValue_self key v acc, h]; simp [hc])
      | false =>
        exact ih (addValue acc key v) key fs
          (by rw [getEntry?_addValue_self key v acc, h]; simp [hc])
    · exact ih (addValue acc k v) key fs
        (by rw [getEntry?_addValue_ne key k v acc hk]; exact h)

theorem foldl_addValue_type_first (pairs : List (String × JSVal)) :
    ∀ (acc : List (String × FieldSchema)) (key : String),
    getEntry? key acc = none →
    (getEntry? key (pairs.foldl (fun s kv => addValue s kv.1 kv.2) acc)).map FieldSchema.type
      = (firstVal? key pairs).map classifyType := by
  induction pairs with
  | nil =>
    intro acc key h
    simp [firstVal?, h]
  | cons kv rest ih =>
    intro acc key h
    obtain ⟨k, v⟩ := kv
    simp only [List.foldl_cons]
    by_cases hk : k = key
    · subst hk
      have hself : getEntry? k (addValue acc k v)
          = some (FieldSchema.mk (classifyType v) (if exampleOk v then [v] else [])) := by
        rw [getEntry?_addValue_self k v acc, h]
      obtain ⟨fs2, h2, h3⟩ := foldl_addValue_type_preserved rest (addValue acc k v) k _ hself
      rw [h2]
      simp [firstVal?, List.find?, h3]
    · have hne : getEntry? key (addValue acc k v) = getEntry? key acc :=
        getEntry?_addValue_ne key k v acc (fun hh => hk hh.symm)
      rw [ih (addValue acc k v) key (hne.trans h)]
      have hbeq : (k == key) = false := by
        simp [hk]
      simp [firstVal?, List.find?, hbeq]

theorem foldl_addValue_examples_le (pairs : List (String × JSVal)) :
    ∀ (acc : List (String × FieldSchema)),
    (∀ key fs, getEntry? key acc = some fs → fs.examples.length ≤ 3) →
    ∀ key fs, getEntry? key (pairs.foldl (fun s kv => addValue s kv.1 kv.2) acc) = some fs →
    fs.examples.length ≤ 3 := by
  induction pairs with
  | nil => exact fun acc hinv key fs h => hinv key fs h
  | cons kv rest ih =>
    intro acc hinv key fs h
    obtain ⟨k, v⟩ := kv
    simp only [List.foldl_cons] at h
    refine ih (addValue acc k v) ?_ key fs h
    intro key2 fs2 h2
    by_cases hk : key2 = k
    · subst hk
      rw [getEntry?_addValue_self key2 v acc] at h2
      cases hacc : getEntry? key2 acc with
      | some fs0 =>
        rw [hacc] at h2
        have hb := hinv key2 fs0 hacc
        by_cases hlt : fs0.examples.length < 3
        · cases hok : exampleOk v with
          | true =>
            simp [hlt, hok] at h2
            rw [← h2]
            simp
            omega
          | false =>
            simp [hlt, hok] at h2
            rw [← h2]
            exact hb
        · simp [hlt] at h2
          rw [← h2]
          exact hb
      | none =>
        rw [hacc] at h2
        cases hok : exampleOk v with
        | true =>
          simp [hok] at h2
          rw [← h2]
          simp
        | false =>
          simp [hok] at h2
          rw [← h2]
          simp
    · rw [getEntry?_addValue_ne key2 k v acc hk] at h2
      exact hinv key2 fs2 h2

theorem foldl_addValue_examples_ok (pairs : List (String × JSVal)) :
    ∀ (acc : List (String × FieldSchema)),
    (∀ key fs, getEntry? key acc = some fs → ∀ v ∈ fs.examples, exampleOk v = true) →
    ∀ key fs, getEntry? key (pairs.foldl (fun s kv => addValue s kv.1 kv.2) acc) = some fs →
    ∀ v ∈ fs.examples, exampleOk v = true := by
  induction pairs with
  | nil => exact fun acc hinv key fs h => hinv key fs h
  | cons kv rest ih =>
    intro acc hinv key fs h
    obtain ⟨k, v⟩ := kv
    simp only [List.foldl_cons] at h
    refine ih (addValue acc k v) ?_ key fs h
    intro key2 fs2 h2
    by_cases hk : key2 = k
    · subst hk
      rw [getEntry?_addValue_self key2 v acc] at h2
      cases hacc : getEntry? key2 acc with
      | some fs0 =>
        rw [hacc] at h2
        cases hc : (decide (fs0.examples.length < 3) && exampleOk v) with
        | true =>
          simp only [hc, if_true, Option.some.injEq] at h2
          rw [← h2]
          intro w hw
          simp at hw
          cases hw with
          | inl hw1 => exact hinv key2 fs0 hacc w hw1
          | inr hw2 =>
            subst hw2
            exact ((Bool.and_eq_true _ _).mp hc).2
        | false =>
          simp only [hc, Bool.false_eq_true, if_false, Option.some.injEq] at h2
          rw [← h2]
          exact hinv key2 fs0 hacc
      | none =>
        rw [hacc] at h2
        cases hok : exampleOk v with
        | true =>
          simp only [hok, if_true, Option.some.injEq] at h2
          rw [← h2]
          intro w hw
          simp at hw
          subst hw
          exact hok
        | false =>
          simp only [hok, Bool.false_eq_true, if_false, Option.some.injEq] at h2
          rw [← h2]
          intro w hw
          simp at hw
    · rw [getEntry?_addValue_ne key2 k v acc hk] at h2
      exact hinv key2 fs2 h2

theorem foldl_addValue_keys (pairs : List (String × JSVal)) :
    ∀ (acc : List (String × FieldSchema)),
    List.map Prod.fst (pairs.foldl (fun s kv => addValue s kv.1 kv.2) acc)
      = pairs.foldl (fun ks kv => insertNew ks kv.1) (List.map Prod.fst acc) := by
  induction pairs with
  | nil => exact fun acc => rfl
  | cons kv rest ih =>
    intro acc
    obtain ⟨k, v⟩ := kv
    simp only [List.foldl_cons]
    rw [ih (addValue acc k v), map_fst_addValue k v acc]

/-- C8 (amended): for every document sample, the Schema Inferencer classifies
each field's value structurally — arrays as "array", null as "null", objects
as "object", and primitives by their `typeof` name — and every value other
than the explicitly-undefined one lands in the six-element set
specTypeNames; the recorded type of a field is always the classification of
the field's first-seen value (later conflicting types are ignored); only
values that are neither null nor undefined are appended to the example list;
and the output lists fields in first-discovery order.  (The claim's original
assertion that classification always lands in the six-element set fails for
a field explicitly set to the undefined value, which the code classifies as
"undefined"; see the counterexample.) -/
theorem inferSchema_classification_and_order :
    (∀ v : JSVal, v ≠ JSVal.undef → classifyType v ∈ specTypeNames)
  ∧ (∀ xs : List JSVal, classifyType (JSVal.array xs) = ("array"))
  ∧ classifyType JSVal.null = ("null")
  ∧ (∀ (docs : List JSDoc) (key : String),
      (getEntry? key (inferSchema docs)).map FieldSchema.type
        = (firstVal? key docs.flatten).map classifyType)
  ∧ (∀ (docs : List JSDoc) (key : String) (fs : FieldSchema),
      getEntry? key (inferSchema docs) = some fs →
      ∀ v ∈ fs.examples, exampleOk v = true)
  ∧ (∀ docs : List JSDoc,
      List.map Prod.fst (inferSchema docs) = discoveryOrder docs.flatten) := by
  refine ⟨?_, fun xs => rfl, rfl, ?_, ?_, ?_⟩
  · intro v hv
    cases v <;> simp [classifyType, specTypeNames]
    exact hv rfl
  · intro docs key
    rw [inferSchema_eq_buildSchema]
    exact foldl_addValue_type_first docs.flatten [] key rfl
  · intro docs key fs h
    rw [inferSchema_eq_buildSchema] at h
    refine foldl_addValue_examples_ok docs.flatten [] ?_ key fs h
    intro k f hh
    simp [getEntry?] at hh
  · intro docs
    rw [inferSchema_eq_buildSchema]
    exact foldl_addValue_keys docs.flatten []

/-- Witness for the amended C8 theorem at concrete inputs: the number value
`1` is classified inside the six-type set, and the example list recorded for
a concrete one-document sample contains only appendable values. -/
theorem inferSchema_classification_and_order_witness :
    classifyType (JSVal.number ("1")) ∈ specTypeNames
  ∧ (∀ v ∈ (FieldSchema.mk ("number") [JSVal.number ("1")]).examples,
      exampleOk v = true) :=
  ⟨inferSchema_classification_and_order.1 (JSVal.number ("1"))
      (fun h => JSVal.noConfusion h),
   inferSchema_classification_and_order.2.2.2.2.1
      [[(("a"), JSVal.number ("1"))]] ("a")
      (FieldSchema.mk ("number") [JSVal.number ("1")]) rfl⟩

/-- C8 counterexample: a document with a field explicitly set to the
undefined value is classified as "undefined", which is outside the
six-element type set the claim allows. -/
theorem inferSchema_undefined_type_counterexample :
    getEntry? ("a") (inferSchema [[(("a"), JSVal.undef)]])
      = some (FieldSchema.mk ("undefined") [])
  ∧ ("undefined") ∉ specTypeNames :=
  ⟨rfl, by decide⟩

/-- C9: for every input sample of documents and every field, the example
list recorded by the Schema Inferencer has length at most 3, regardless of
how many sample documents contain that field. -/
theorem inferSchema_examples_at_most_three :
    ∀ (docs : List JSDoc) (key : String) (fs : FieldSchema),
    getEntry? key (inferSchema docs) = some fs → fs.examples.length ≤ 3 := by
  intro docs key fs h
  rw [inferSchema_eq_buildSchema] at h
  refine foldl_addValue_examples_le docs.flatten [] ?_ key fs h
  intro k f hh
  simp [getEntry?] at hh

/-- Witness for C9: a field occurring in five sample documents still records
exactly the first three values. -/
theorem inferSchema_examples_at_most_three_witness :
    (FieldSchema.mk ("number")
      [JSVal.number ("1"), JSVal.number ("2"), JSVal.number ("3")]).examples.length ≤ 3 :=
  inferSchema_examples_at_most_three
    [[(("a"), JSVal.number ("1"))], [(("a"), JSVal.number ("2"))],
     [(("a"), JSVal.number ("3"))], [(("a"), JSVal.number ("4"))],
     [(("a"), JSVal.number ("5"))]] ("a")
    (FieldSchema.mk ("number") [JSVal.number ("1"), JSVal.number ("2"), JSVal.number ("3")]) rfl

/-! ## Claims about the connection lifecycle -/

/-- C1 (code bug): the claim — and the specification — require that a failed
connection attempt leaves the state so that the next operation call performs
a fresh connect.  The code violates this: `this.client` is assigned before
`await connect()`, so after a failed attempt the guard `if (!this.client)`
skips reconnecting forever.  Concretely: a first `mongodb_query` call while
the store is unreachable issues one connect attempt and renders the
connection-failure envelope; a second call made after the store has become
reachable issues no driver interaction at all and fails with the null-handle
`TypeError` rendered as a tool-execution failure. -/
theorem failed_connection_never_retried :
    (dispatchTool ("mongodb://localhost:27017") ("mycompany") (ConnSt.mk false false)
        (ConnectOutcome.connectFails ("connect ECONNREFUSED")) sampleQueryRequest stubStore).2.2
      = [StoreOp.connect]
  ∧ (dispatchTool ("mongodb://localhost:27017") ("mycompany") (ConnSt.mk false false)
        (ConnectOutcome.connectFails ("connect ECONNREFUSED")) sampleQueryRequest stubStore).1
      = ConnSt.mk true false
  ∧ (dispatchTool ("mongodb://localhost:27017") ("mycompany") (ConnSt.mk false false)
        (ConnectOutcome.connectFails ("connect ECONNREFUSED")) sampleQueryRequest stubStore).2.1
      = Envelope.connFailure ("MongoDB connection failed: connect ECONNREFUSED")
          ("mongodb://localhost:27017") ("mycompany")
  ∧ (dispatchTool ("mongodb://localhost:27017") ("mycompany") (ConnSt.mk true false)
        ConnectOutcome.ok sampleQueryRequest stubStore).2.2 = []
  ∧ (dispatchTool ("mongodb://localhost:27017") ("mycompany") (ConnSt.mk true false)
        ConnectOutcome.ok sampleQueryRequest stubStore).2.1
      = Envelope.toolFailure ("mongodb_query") nullDbError :=
  ⟨rfl, rfl, rfl, rfl, rfl⟩

theorem stepCaller_client_true (s : MState) (pc : CallerPC) (res : Bool)
    (h : s.client = true) :
    (stepCaller s pc res).1.client = true
  ∧ (stepCaller s pc res).1.attempts = s.attempts := by
  cases pc <;> cases res <;> simp [stepCaller, h]

theorem stepCaller_client_false (s : MState) (res : Bool)
    (h : s.client = false) :
    stepCaller s CallerPC.start res
      = (MState.mk true s.db (s.attempts + 1), CallerPC.awaitConnect) := by
  simp [stepCaller, h]

theorem runStep_preserves_ConnInv (cfg : MState × List CallerPC) (ev : Nat × Bool)
    (h : ConnInv cfg) : ConnInv (runStep cfg ev) := by
  obtain ⟨h1, h2⟩ := h
  unfold runStep
  cases hget : cfg.2[ev.1]? with
  | none => exact ⟨h1, h2⟩
  | some pc =>
    have hmem : pc ∈ cfg.2 := List.getElem?_mem hget
    show ConnInv ((stepCaller cfg.1 pc ev.2).1, cfg.2.set ev.1 (stepCaller cfg.1 pc ev.2).2)
    unfold ConnInv
    cases hc : cfg.1.client with
    | false =>
      have hpc : pc = CallerPC.start := h2 hc pc hmem
      subst hpc
      rw [stepCaller_client_false cfg.1 ev.2 hc]
      have ha : cfg.1.attempts = 0 := by
        rw [h1, hc]
        rfl
      refine ⟨?_, ?_⟩
      · simp [ha]
      · intro hfalse
        simp at hfalse
    | true =>
      obtain ⟨hcl, hat⟩ := stepCaller_client_true cfg.1 pc ev.2 hc
      refine ⟨?_, ?_⟩
      · rw [hat, hcl, h1, hc]
      · intro hfalse
        rw [hcl] at hfalse
        simp at hfalse

theorem runSched_preserves_ConnInv (sched : List (Nat × Bool)) :
    ∀ cfg : MState × List CallerPC, ConnInv cfg → ConnInv (runSched cfg sched) := by
  induction sched with
  | nil => exact fun cfg h => h
  | cons ev rest ih =>
    intro cfg h
    have : runSched cfg (ev :: rest) = runSched (runStep cfg ev) rest := by
      simp [runSched]
    rw [this]
    exact ih (runStep cfg ev) (runStep_preserves_ConnInv cfg ev h)

/-- C4 (amended): for every number of concurrent callers and every
interleaving of their steps from the initial unconnected configuration, at
most one underlying connect attempt is ever started, and exactly one has
been started as soon as any caller has progressed past its initial check.
(The claim's further assertion that the remaining callers wait for the
in-flight attempt to resolve before proceeding is refuted by the
counterexample: a second caller returns immediately while the attempt is
still pending and the namespace handle is unset.) -/
theorem ensureConnected_single_attempt :
    ∀ (n : Nat) (sched : List (Nat × Bool)),
    (runSched (initCfg n) sched).1.attempts ≤ 1
  ∧ (∀ (i : Nat) (pc : CallerPC), ((runSched (initCfg n) sched).2)[i]? = some pc →
      pc ≠ CallerPC.start → (runSched (initCfg n) sched).1.attempts = 1) := by
  intro n sched
  have hinit : ConnInv (initCfg n) := by
    refine ⟨rfl, ?_⟩
    intro _ pc hm
    exact List.eq_of_mem_replicate hm
  obtain ⟨h1, h2⟩ := runSched_preserves_ConnInv sched (initCfg n) hinit
  constructor
  · rw [h1]
    cases (runSched (initCfg n) sched).1.client <;> simp
  · intro i pc hget hne
    rw [h1]
    cases hc : (runSched (initCfg n) sched).1.client
    · exact absurd (h2 hc pc (List.getElem?_mem hget)) hne
    · simp

/-- Witness for the amended C4 theorem: two callers, one scheduled step; the
attempt counter is exactly 1 once caller 0 has progressed. -/
theorem ensureConnected_single_attempt_witness :
    (runSched (initCfg 2) [(0, true)]).1.attempts ≤ 1
  ∧ (runSched (initCfg 2) [(0, true)]).1.attempts = 1 :=
  ⟨(ensureConnected_single_attempt 2 [(0, true)]).1,
   (ensureConnected_single_attempt 2 [(0, true)]).2 0 CallerPC.awaitConnect rfl
     (fun hh => CallerPC.noConfusion hh)⟩

/-- C4 counterexample: caller 0 starts the connect attempt and suspends;
caller 1 then observes `this.client` set, returns immediately (`done`) while
the attempt is unresolved and the namespace handle `db` is still unset —
callers do not wait for the single in-flight attempt. -/
theorem ensureConnected_no_wait_counterexample :
    ((runSched (initCfg 2) [(0, true), (1, true)]).2)[1]? = some CallerPC.done
  ∧ (runSched (initCfg 2) [(0, true), (1, true)]).1.db = false
  ∧ ((runSched (initCfg 2) [(0, true), (1, true)]).2)[0]? = some CallerPC.awaitConnect :=
  ⟨rfl, rfl, rfl⟩

/-! ## Claims about argument defaulting and fragment decoding -/

/-- C3 (amended): in every `mongodb_query` call the effective limit passed to
`find` is `limit || 100` — the default 100 applies when the argument is
absent or zero, while a negative value passes through unchanged (it is not
replaced by the default, contrary to the claim's "non-positive" wording; see
the counterexample) — and the effective skip is `skip || 0`, so 0 whenever
`skip` is absent. -/
theorem query_limit_skip_defaults :
    ∀ (coll : String) (store : StoreBehavior) (l sk : Option Int),
    (handleQuery (ConnSt.mk true true) (queryArgs coll none none none l sk) store).2
      = [StoreOp.find coll (JSVal.object []) none (JSVal.object [])
          (jsOrIntDefault sk 0) (jsOrIntDefault l 100)]
  ∧ jsOrIntDefault (none : Option Int) 100 = 100
  ∧ jsOrIntDefault (some 0) 100 = 100
  ∧ (∀ v : Int, v ≠ 0 → jsOrIntDefault (some v) 100 = v)
  ∧ jsOrIntDefault (none : Option Int) 0 = 0 := by
  intro coll store l sk
  refine ⟨?_, rfl, by simp [jsOrIntDefault], ?_, rfl⟩
  · cases hr : store.findR coll (JSVal.object []) none (JSVal.object [])
        (jsOrIntDefault sk 0) (jsOrIntDefault l 100) with
    | error e =>
      simp [handleQuery, queryArgs, parseOrEmptyObj, parseOrUndef, jsTruthyStr,
        jsOrElse, hr]
    | ok rs =>
      simp [handleQuery, queryArgs, parseOrEmptyObj, parseOrUndef, jsTruthyStr,
        jsOrElse, hr]
  · intro v hv
    simp [jsOrIntDefault, hv]

/-- Witness for the amended C3 theorem: with no arguments the issued `find`
carries skip 0 and limit 100, and a non-zero limit (7) passes through. -/
theorem query_limit_skip_defaults_witness :
    (handleQuery (ConnSt.mk true true) (queryArgs ("c") none none none none none) stubStore).2
      = [StoreOp.find ("c") (JSVal.object []) none (JSVal.object []) 0 100]
  ∧ jsOrIntDefault (some 7) 100 = 7 :=
  ⟨(query_limit_skip_defaults ("c") stubStore none none).1,
   (query_limit_skip_defaults ("c") stubStore none none).2.2.2.1 7 (by decide)⟩

/-- C3 counterexample: a negative limit argument (−1) is truthy in
JavaScript, so `limit || 100` passes it to `find` unchanged instead of
substituting the default 100 as the claim requires for non-positive
values. -/
theorem query_negative_limit_counterexample :
    (handleQuery (ConnSt.mk true true) (queryArgs ("c") none none none (some (-1)) none) stubStore).2
      = [StoreOp.find ("c") (JSVal.object []) none (JSVal.object []) 0 (-1)]
  ∧ ¬ ((-1 : Int) = 100) :=
  ⟨rfl, by decide⟩

/-- C10: an empty-string `filter` (for query, count and distinct) and an
empty-string `projection` or `sort` (for query) are falsy, so the handler
behaves exactly as if the argument were absent — the identity default is
used and no parse failure is raised — whereas `mongodb_aggregate` applies
`JSON.parse` to its pipeline text unconditionally, so an empty-string
pipeline is parsed and fails before any store call. -/
theorem empty_string_fragment_defaults :
    (∀ (st : ConnSt) (coll : String) (p so : Option String) (l sk : Option Int)
       (store : StoreBehavior),
      handleQuery st (queryArgs coll (some ("")) p so l sk) store
        = handleQuery st (queryArgs coll none p so l sk) store)
  ∧ (∀ (st : ConnSt) (coll : String) (f so : Option String) (l sk : Option Int)
       (store : StoreBehavior),
      handleQuery st (queryArgs coll f (some ("")) so l sk) store
        = handleQuery st (queryArgs coll f none so l sk) store)
  ∧ (∀ (st : ConnSt) (coll : String) (f p : Option String) (l sk : Option Int)
       (store : StoreBehavior),
      handleQuery st (queryArgs coll f p (some ("")) l sk) store
        = handleQuery st (queryArgs coll f p none l sk) store)
  ∧ (∀ (st : ConnSt) (coll : String) (store : StoreBehavior),
      handleCount st (countArgs coll (some (""))) store
        = handleCount st (countArgs coll none) store)
  ∧ (∀ (st : ConnSt) (coll fld : String) (store : StoreBehavior),
      handleDistinct st (distinctArgs coll fld (some (""))) store
        = handleDistinct st (distinctArgs coll fld none) store)
  ∧ (∀ (coll : String) (store : StoreBehavior),
      (handleAggregate (ConnSt.mk true true) (aggArgs coll ("")) store).1
        = Except.error ("SyntaxError: Unexpected token in JSON"))
  ∧ (∀ (coll : String) (store : StoreBehavior),
      (handleAggregate (ConnSt.mk true true) (aggArgs coll ("")) store).2 = []) :=
  ⟨fun _ _ _ _ _ _ _ => rfl, fun _ _ _ _ _ _ _ => rfl, fun _ _ _ _ _ _ _ => rfl,
   fun _ _ _ => rfl, fun _ _ _ _ => rfl, fun _ _ => rfl, fun _ _ => rfl⟩

theorem parseOrEmptyObj_invalid (s : String) (hp : jsonParse s = none)
    (hne : ¬ s = ("")) :
    parseOrEmptyObj (some s) = Except.error ("SyntaxError: Unexpected token in JSON") := by
  have hs : s.isEmpty = false := by
    cases hh : s.isEmpty
    · rfl
    · exact absurd ((String.isEmpty_iff s).mp hh) hne
  simp [parseOrEmptyObj, jsTruthyStr, hs, hp]

theorem parseOrEmptyObj_valid (s : String) (v : JSVal) (hp : jsonParse s = some v)
    (hne : ¬ s = ("")) : parseOrEmptyObj (some s) = Except.ok v := by
  have hs : s.isEmpty = false := by
    cases hh : s.isEmpty
    · rfl
    · exact absurd ((String.isEmpty_iff s).mp hh) hne
  simp [parseOrEmptyObj, jsTruthyStr, hs, hp]

theorem parseOrUndef_invalid (s : String) (hp : jsonParse s = none)
    (hne : ¬ s = ("")) :
    parseOrUndef (some s) = Except.error ("SyntaxError: Unexpected token in JSON") := by
  have hs : s.isEmpty = false := by
    cases hh : s.isEmpty
    · rfl
    · exact absurd ((String.isEmpty_iff s).mp hh) hne
  simp [parseOrUndef, jsTruthyStr, hs, hp]

theorem parseOrUndef_valid (s : String) (v : JSVal) (hp : jsonParse s = some v)
    (hne : ¬ s = ("")) : parseOrUndef (some s) = Except.ok (some v) := by
  have hs : s.isEmpty = false := by
    cases hh : s.isEmpty
    · rfl
    · exact absurd ((String.isEmpty_iff s).mp hh) hne
  simp [parseOrUndef, jsTruthyStr, hs, hp]

theorem parseOrEmptyObj_error_msg (o : Option String) (e : String)
    (h : parseOrEmptyObj o = Except.error e) :
    e = ("SyntaxError: Unexpected token in JSON") := by
  by_cases ht : jsTruthyStr o = true
  · cases hp : jsonParse (o.getD ("")) with
    | some v => simp [parseOrEmptyObj, ht, hp] at h
    | none =>
      simp [parseOrEmptyObj, ht, hp] at h
      exact h.symm
  · simp [parseOrEmptyObj, ht] at h

theorem parseOrUndef_error_msg (o : Option String) (e : String)
    (h : parseOrUndef o = Except.error e) :
    e = ("SyntaxError: Unexpected token in JSON") := by
  by_cases ht : jsTruthyStr o = true
  · cases hp : jsonParse (o.getD ("")) with
    | some v => simp [parseOrUndef, ht, hp] at h
    | none =>
      simp [parseOrUndef, ht, hp] at h
      exact h.symm
  · simp [parseOrUndef, ht] at h

/-- C2 (amended): for every present non-empty fragment text that is
syntactically invalid — whether it is the filter of query, count or
distinct, the projection or sort of query (whatever the other fragment
arguments are), or the pipeline of aggregate — the operation fails at the
parse step (`JSON.parse` throws) and no store query (find, count, aggregate
or distinct) is issued; but well-formed text of an unexpected top-level
shape is NOT rejected for any fragment: the parsed value is passed on to
the issued store query unchanged (for filter and projection as parsed, for
sort through `sortObj || \x7b\x7d`, for the pipeline as parsed), contrary
to the claim's `MalformedFragment` requirement for wrong top-level shapes
(see the counterexample). -/
theorem invalid_fragment_short_circuits :
    ∀ (s coll fld : String) (f p so : Option String) (store : StoreBehavior),
    (jsonParse s = none → ¬ s = ("") →
      handleQuery (ConnSt.mk true true) (queryArgs coll (some s) p so none none) store
          = (Except.error ("SyntaxError: Unexpected token in JSON"), [])
      ∧ handleCount (ConnSt.mk true true) (countArgs coll (some s)) store
          = (Except.error ("SyntaxError: Unexpected token in JSON"), [])
      ∧ handleDistinct (ConnSt.mk true true) (distinctArgs coll fld (some s)) store
          = (Except.error ("SyntaxError: Unexpected token in JSON"), [])
      ∧ handleQuery (ConnSt.mk true true) (queryArgs coll f (some s) so none none) store
          = (Except.error ("SyntaxError: Unexpected token in JSON"), [])
      ∧ handleQuery (ConnSt.mk true true) (queryArgs coll f p (some s) none none) store
          = (Except.error ("SyntaxError: Unexpected token in JSON"), [])
      ∧ handleAggregate (ConnSt.mk true true) (aggArgs coll s) store
          = (Except.error ("SyntaxError: Unexpected token in JSON"), []))
  ∧ (¬ s = ("") → ∀ v : JSVal, jsonParse s = some v →
      (handleQuery (ConnSt.mk true true) (queryArgs coll (some s) none none none none) store).2
          = [StoreOp.find coll v none (JSVal.object []) 0 100]
      ∧ (handleQuery (ConnSt.mk true true) (queryArgs coll none (some s) none none none) store).2
          = [StoreOp.find coll (JSVal.object []) (some v) (JSVal.object []) 0 100]
      ∧ (handleQuery (ConnSt.mk true true) (queryArgs coll none none (some s) none none) store).2
          = [StoreOp.find coll (JSVal.object []) none (jsOr v (JSVal.object [])) 0 100]
      ∧ (handleAggregate (ConnSt.mk true true) (aggArgs coll s) store).2
          = [StoreOp.aggregate coll v]) := by
  intro s coll fld f p so store
  constructor
  · intro hparse hne
    have hfe := parseOrEmptyObj_invalid s hparse hne
    have hue := parseOrUndef_invalid s hparse hne
    refine ⟨?_, ?_, ?_, ?_, ?_, ?_⟩
    · simp [handleQuery, queryArgs, hfe]
    · simp [handleCount, countArgs, hfe]
    · simp [handleDistinct, distinctArgs, hfe]
    · cases hf : parseOrEmptyObj f with
      | error e =>
        have he := parseOrEmptyObj_error_msg f e hf
        subst he
        simp [handleQuery, queryArgs, hf]
      | ok fv =>
        simp [handleQuery, queryArgs, hf, hue]
    · cases hf : parseOrEmptyObj f with
      | error e =>
        have he := parseOrEmptyObj_error_msg f e hf
        subst he
        simp [handleQuery, queryArgs, hf]
      | ok fv =>
        cases hp2 : parseOrUndef p with
        | error e =>
          have he := parseOrUndef_error_msg p e hp2
          subst he
          simp [handleQuery, queryArgs, hf, hp2]
        | ok pv =>
          simp [handleQuery, queryArgs, hf, hp2, hue]
    · simp [handleAggregate, aggArgs, hparse]
  · intro hne v hv
    have hfv := parseOrEmptyObj_valid s v hv hne
    have huv := parseOrUndef_valid s v hv hne
    have hfn : parseOrEmptyObj none = Except.ok (JSVal.object []) := rfl
    have hun : parseOrUndef none = Except.ok none := rfl
    refine ⟨?_, ?_, ?_, ?_⟩
    · cases hr : store.findR coll v none (JSVal.object []) 0 100 with
      | error e =>
        simp [handleQuery, queryArgs, hfv, hun, jsOrElse, jsOrIntDefault, hr]
      | ok rs =>
        simp [handleQuery, queryArgs, hfv, hun, jsOrElse, jsOrIntDefault, hr]
    · cases hr : store.findR coll (JSVal.object []) (some v) (JSVal.object []) 0 100 with
      | error e =>
        simp [handleQuery, queryArgs, hfn, hun, huv, jsOrElse, jsOrIntDefault, hr]
      | ok rs =>
        simp [handleQuery, queryArgs, hfn, hun, huv, jsOrElse, jsOrIntDefault, hr]
    · cases hr : store.findR coll (JSVal.object []) none (jsOr v (JSVal.object [])) 0 100 with
      | error e =>
        simp only [jsOr] at hr
        simp [handleQuery, queryArgs, hfn, hun, huv, jsOrElse, jsOr, jsOrIntDefault, hr]
      | ok rs =>
        simp only [jsOr] at hr
        simp [handleQuery, queryArgs, hfn, hun, huv, jsOrElse, jsOr, jsOrIntDefault, hr]
    · cases hr : store.aggregateR coll v with
      | error e => simp [handleAggregate, aggArgs, hv, hr]
      | ok rs => simp [handleAggregate, aggArgs, hv, hr]

/-- Witness for the amended C2 theorem: the syntactically invalid fragment
text `[1,2` short-circuits `mongodb_query` with the parse error and an
empty store trace when it stands in the filter, the projection (under a
well-formed filter) or the sort slot; and a well-formed array in the
projection slot is passed through to the issued `find`. -/
theorem invalid_fragment_short_circuits_witness :
    handleQuery (ConnSt.mk true true)
        (queryArgs ("users") (some ("[1,2")) none none none none) stubStore
      = (Except.error ("SyntaxError: Unexpected token in JSON"), [])
  ∧ handleQuery (ConnSt.mk true true)
        (queryArgs ("users") (some ("\x7b\"a\":1\x7d")) (some ("[1,2")) none none none) stubStore
      = (Except.error ("SyntaxError: Unexpected token in JSON"), [])
  ∧ handleQuery (ConnSt.mk true true)
        (queryArgs ("users") (some ("\x7b\"a\":1\x7d")) none (some ("[1,2")) none none) stubStore
      = (Except.error ("SyntaxError: Unexpected token in JSON"), [])
  ∧ (handleQuery (ConnSt.mk true true)
        (queryArgs ("users") none (some ("[1,2]")) none none none) stubStore).2
      = [StoreOp.find ("users") (JSVal.object [])
          (some (JSVal.array [JSVal.number ("1"), JSVal.number ("2")]))
          (JSVal.object []) 0 100] := by
  have hA := (invalid_fragment_short_circuits ("[1,2") ("users") ("f")
    (some ("\x7b\"a\":1\x7d")) none none stubStore).1 rfl (by decide)
  have hB := (invalid_fragment_short_circuits ("[1,2]") ("users") ("f")
    none none none stubStore).2 (by decide)
    (JSVal.array [JSVal.number ("1"), JSVal.number ("2")]) rfl
  exact ⟨hA.1, hA.2.2.2.1, hA.2.2.2.2.1, hB.2.1⟩

/-- C2 counterexample: well-formed fragment text of the wrong top-level
shape is not rejected.  The array `[1,2]` in the filter slot — where an
object is expected — makes `mongodb_query` issue a `find` with the array as
the filter, and the object `\x7b\x7d` in the pipeline slot — where an array
is expected — makes `mongodb_aggregate` issue an `aggregate` with the
object as the pipeline; neither fails with a malformed-fragment error and
in both cases a store query is issued. -/
theorem wrong_shape_not_rejected_counterexample :
    jsonParse ("[1,2]") = some (JSVal.array [JSVal.number ("1"), JSVal.number ("2")])
  ∧ (handleQuery (ConnSt.mk true true) (queryArgs ("users") (some ("[1,2]")) none none none none) stubStore).2
      = [StoreOp.find ("users") (JSVal.array [JSVal.number ("1"), JSVal.number ("2")]) none
          (JSVal.object []) 0 100]
  ∧ ¬ ((handleQuery (ConnSt.mk true true) (queryArgs ("users") (some ("[1,2]")) none none none none) stubStore).2
      = [])
  ∧ jsonParse ("\x7b\x7d") = some (JSVal.object [])
  ∧ (handleAggregate (ConnSt.mk true true) (aggArgs ("users") ("\x7b\x7d")) stubStore).2
      = [StoreOp.aggregate ("users") (JSVal.object [])]
  ∧ ¬ ((handleAggregate (ConnSt.mk true true) (aggArgs ("users") ("\x7b\x7d")) stubStore).2
      = []) :=
  ⟨rfl, rfl, fun h => List.cons_ne_nil _ _ h, rfl, rfl, fun h => List.cons_ne_nil _ _ h⟩

/-! ## Claims about the dispatcher boundary and resource addressing -/

/-- C7: every failure raised during argument parsing or store execution of a
call-operation — including an unknown operation name, which raises
`Unknown tool: <name>` — is caught at the dispatcher boundary and rendered
as a failure envelope carrying an error-kind label, a message, and the
operation name.  The dispatcher is total: for every request and every store
behaviour the result is a success envelope, the tool-failure envelope naming
the requested operation, or (only for connection-establishment failure,
which precedes parsing) the connection diagnostic; every failure envelope
carries an error-kind label. -/
theorem dispatcher_catches_all_failures :
    ∀ (uri dbName : String) (st : ConnSt) (oc : ConnectOutcome) (req : ToolRequest)
      (store : StoreBehavior),
    ((∃ p, (dispatchTool uri dbName st oc req store).2.1 = Envelope.success p)
      ∨ (∃ m, (dispatchTool uri dbName st oc req store).2.1 = Envelope.toolFailure req.name m)
      ∨ (∃ m, (dispatchTool uri dbName st oc req store).2.1
            = Envelope.connFailure m (redactUri uri) dbName))
  ∧ (∀ e : Envelope, (dispatchTool uri dbName st oc req store).2.1 = e →
        e.isError = true → ∃ k, e.errorLabel = some k)
  ∧ (req.name ∉ knownToolNames → (connectToMongoDB st oc).2.1 = Except.ok () →
      (dispatchTool uri dbName st oc req store).2.1
        = Envelope.toolFailure req.name ("Unknown tool: " ++ req.name)) := by
  intro uri dbName st oc req store
  refine ⟨?_, ?_, ?_⟩
  · rcases hc : connectToMongoDB st oc with ⟨st1, r, ops⟩
    cases r with
    | error m =>
      right; right
      exact ⟨m, by simp [dispatchTool, hc]⟩
    | ok u =>
      rcases ht : toolSwitch uri dbName st1 req store with ⟨res, ops2⟩
      cases res with
      | ok p =>
        left
        exact ⟨p, by simp [dispatchTool, hc, ht]⟩
      | error m =>
        right; left
        exact ⟨m, by simp [dispatchTool, hc, ht]⟩
  · intro e he hErr
    cases e with
    | success p => simp [Envelope.isError] at hErr
    | toolFailure t m => exact ⟨("Tool Execution Failed"), rfl⟩
    | connFailure m u d => exact ⟨("MongoDB Connection Failed"), rfl⟩
  · intro hname hok
    rcases hc : connectToMongoDB st oc with ⟨st1, r, ops⟩
    rw [hc] at hok
    simp at hok
    cases r with
    | error m => simp at hok
    | ok u =>
      have hts : toolSwitch uri dbName st1 req store
          = (Except.error ("Unknown tool: " ++ req.name), []) := by
        simp only [knownToolNames, List.mem_cons, List.not_mem_nil, or_false, not_or] at hname
        obtain ⟨n1, n2, n3, n4, n5, n6, n7⟩ := hname
        simp [toolSwitch, n1, n2, n3, n4, n5, n6, n7]
      simp [dispatchTool, hc, hts]

/-- Witness for C7: a call with the unknown operation name `bogus_tool` is
rendered as the tool-failure envelope naming the operation, and that
envelope carries an error-kind label. -/
theorem dispatcher_catches_all_failures_witness :
    (dispatchTool ("mongodb://localhost:27017") ("mycompany") (ConnSt.mk true true)
        ConnectOutcome.ok (ToolRequest.mk ("bogus_tool") (queryArgs ("c") none none none none none))
        stubStore).2.1
      = Envelope.toolFailure ("bogus_tool") ("Unknown tool: " ++ ("bogus_tool"))
  ∧ (∃ k, (Envelope.toolFailure ("bogus_tool") ("Unknown tool: " ++ ("bogus_tool"))).errorLabel
        = some k) := by
  have h := dispatcher_catches_all_failures ("mongodb://localhost:27017") ("mycompany")
    (ConnSt.mk true true) ConnectOutcome.ok
    (ToolRequest.mk ("bogus_tool") (queryArgs ("c") none none none none none)) stubStore
  have h3 := h.2.2 (by decide) rfl
  exact ⟨h3, h.2.1 _ h3 rfl⟩

theorem connectToMongoDB_ops_not_data (st : ConnSt) (oc : ConnectOutcome) :
    ∀ op ∈ (connectToMongoDB st oc).2.2, op.isDataOp = false := by
  unfold connectToMongoDB
  cases hcl : st.client
  · cases oc with
    | ok =>
      intro op h
      simp at h
      rcases h with h | h <;> rw [h] <;> rfl
    | connectFails m =>
      intro op h
      simp at h
      rw [h]
      rfl
    | pingFails m =>
      intro op h
      simp at h
      rcases h with h | h <;> rw [h] <;> rfl
  · simp

/-- C6 (amended): provided the connection step succeeds (or the connection
is already established), every read-resource request whose address does not
match the `<scheme>://<namespace>/<collection>` shape, or whose namespace
differs from the configured database name, fails with the invalid-address
error and issues no data operation against the store.  The connection
itself is ensured before the address is validated, so the trace may still
contain the connect and ping steps — the claim's stronger "no store call is
issued" is refuted by the counterexample. -/
theorem read_resource_invalid_address :
    ∀ (dbName reqUri : String) (st : ConnSt) (oc : ConnectOutcome) (store : StoreBehavior),
    (connectToMongoDB st oc).2.1 = Except.ok () →
    (parseResourceUri reqUri = none
      ∨ (∃ dbn coll, parseResourceUri reqUri = some (dbn, coll) ∧ ¬ dbn = dbName)) →
    (∃ m, (readResource dbName st oc reqUri store).2.1 = Except.error m)
  ∧ (∀ op ∈ (readResource dbName st oc reqUri store).2.2, op.isDataOp = false) := by
  intro dbName reqUri st oc store hok hbad
  have hops := connectToMongoDB_ops_not_data st oc
  rcases hc : connectToMongoDB st oc with ⟨st1, r, ops⟩
  rw [hc] at hok hops
  simp at hok
  cases r with
  | error m => simp at hok
  | ok u =>
    unfold readResource
    rw [hc]
    rcases hbad with hnone | ⟨dbn, coll, hsome, hneq⟩
    · rw [hnone]
      exact ⟨⟨_, rfl⟩, hops⟩
    · rw [hsome]
      simp only []
      rw [if_pos hneq]
      exact ⟨⟨_, rfl⟩, hops⟩

/-- Witness for the amended C6 theorem: reading
`mongodb://otherdb/users` while configured for namespace `mycompany` fails
and issues no data operation. -/
theorem read_resource_invalid_address_witness :
    (∃ m, (readResource ("mycompany") (ConnSt.mk false false) ConnectOutcome.ok
        ("mongodb://otherdb/users") stubStore).2.1 = Except.error m)
  ∧ (∀ op ∈ (readResource ("mycompany") (ConnSt.mk false false) ConnectOutcome.ok
        ("mongodb://otherdb/users") stubStore).2.2, op.isDataOp = false) :=
  read_resource_invalid_address ("mycompany") ("mongodb://otherdb/users")
    (ConnSt.mk false false) ConnectOutcome.ok stubStore rfl
    (Or.inr ⟨("otherdb"), ("users"), rfl, by decide⟩)

/-- C6 counterexample: the same mismatched-namespace read, issued before any
connection exists, still performs the connect and ping store interactions
before failing — so the claim that no store call at all is issued is false
on the code. -/
theorem read_resource_store_call_counterexample :
    (readResource ("mycompany") (ConnSt.mk false false) ConnectOutcome.ok
        ("mongodb://otherdb/users") stubStore).2.2 = [StoreOp.connect, StoreOp.ping]
  ∧ (∃ m, (readResource ("mycompany") (ConnSt.mk false false) ConnectOutcome.ok
        ("mongodb://otherdb/users") stubStore).2.1 = Except.error m)
  ∧ ¬ ((readResource ("mycompany") (ConnSt.mk false false) ConnectOutcome.ok
        ("mongodb://otherdb/users") stubStore).2.2 = []) :=
  ⟨rfl, ⟨_, rfl⟩, fun h => List.cons_ne_nil _ _ h⟩

/-! ## Claims about credential redaction -/

theorem lastAtSign_cons (c : Char) (rest : List Char) :
    lastAtSign (c :: rest) = (match lastAtSign rest with
      | some i => some (i + 1)
      | none => if c = '@' then some 0 else none) := rfl

theorem lastAtSign_eq_none (l : List Char) (h : '@' ∉ l) : lastAtSign l = none := by
  induction l with
  | nil => rfl
  | cons c rest ih =>
    simp only [List.mem_cons, not_or] at h
    rw [lastAtSign_cons, ih h.2, if_neg (fun hh : c = '@' => h.1 hh.symm)]

theorem lastAtSign_append (l1 l2 : List Char) (h : '@' ∉ l2) :
    lastAtSign (l1 ++ '@' :: l2) = some l1.length := by
  induction l1 with
  | nil =>
    rw [List.nil_append, lastAtSign_cons, lastAtSign_eq_none l2 h]
    simp
  | cons c rest ih =>
    rw [List.cons_append, lastAtSign_cons, ih]
    simp

theorem takeWhile_append_creds (creds rest : List Char)
    (h : ∀ c ∈ creds, isLineTerm c = false) :
    (creds ++ '@' :: rest).takeWhile (fun c => !isLineTerm c)
      = creds ++ '@' :: rest.takeWhile (fun c => !isLineTerm c) := by
  induction creds with
  | nil =>
    rw [List.nil_append, List.nil_append, List.takeWhile_cons]
    simp [show isLineTerm '@' = false from rfl]
  | cons c cr ih =>
    have hc : isLineTerm c = false := h c (List.mem_cons_self c cr)
    rw [List.cons_append, List.takeWhile_cons]
    simp only [hc, Bool.not_false, if_true]
    rw [ih (fun d hd => h d (List.mem_cons_of_mem c hd))]
    rfl

theorem matchCredsAt_cons2 (c1 c2 : Char) (rest : List Char) :
    matchCredsAt (c1 :: c2 :: rest) =
      (if c1 = '/' && c2 = '/' then
        match lastAtSign (rest.takeWhile (fun c => !isLineTerm c)) with
        | some i => some (rest.drop (i + 1))
        | none => none
      else none) := rfl

theorem matchCredsAt_not_slash (c d : Char) (cs : List Char) (h : ¬ c = '/') :
    matchCredsAt (c :: d :: cs) = none := by
  rw [matchCredsAt_cons2]
  simp [h]

theorem matchCredsAt_slashes (creds rest : List Char)
    (h1 : ∀ c ∈ creds, isLineTerm c = false) (h2 : '@' ∉ rest) :
    matchCredsAt ('/' :: '/' :: (creds ++ '@' :: rest)) = some rest := by
  have hnotin : '@' ∉ rest.takeWhile (fun c => !isLineTerm c) :=
    fun hm => h2 ((List.takeWhile_sublist _).mem hm)
  have hdrop : List.drop (creds.length + 1) (creds ++ '@' :: rest) = rest := by
    have hassoc : creds ++ '@' :: rest = (creds ++ ['@']) ++ rest := by simp
    rw [hassoc]
    have hlen : creds.length + 1 = (creds ++ ['@']).length := by simp
    rw [hlen, List.drop_left]
  rw [matchCredsAt_cons2, takeWhile_append_creds creds rest h1,
    lastAtSign_append creds _ hnotin]
  simp [hdrop]

theorem redactChars_cons (c : Char) (cs : List Char) :
    redactChars (c :: cs) = (match matchCredsAt (c :: cs) with
      | some tail => '/' :: '/' :: '*' :: '*' :: '*' :: '@' :: tail
      | none => c :: redactChars cs) := rfl

theorem redactChars_cons_of_none (c : Char) (cs : List Char)
    (h : matchCredsAt (c :: cs) = none) :
    redactChars (c :: cs) = c :: redactChars cs := by
  rw [redactChars_cons, h]

theorem redactChars_cons_of_some (c : Char) (cs tail : List Char)
    (h : matchCredsAt (c :: cs) = some tail) :
    redactChars (c :: cs) = '/' :: '/' :: '*' :: '*' :: '*' :: '@' :: tail := by
  rw [redactChars_cons, h]

theorem redactChars_mongo_shape (creds rest : List Char)
    (h1 : ∀ c ∈ creds, isLineTerm c = false) (h2 : '@' ∉ rest) :
    redactChars (("mongodb://").toList ++ creds ++ '@' :: rest)
      = ("mongodb://***@").toList ++ rest := by
  show redactChars
      ('m' :: 'o' :: 'n' :: 'g' :: 'o' :: 'd' :: 'b' :: ':' :: '/' :: '/'
        :: (creds ++ '@' :: rest))
    = ("mongodb://***@").toList ++ rest
  rw [redactChars_cons_of_none _ _ (matchCredsAt_not_slash _ _ _ (by decide))]
  rw [redactChars_cons_of_none _ _ (matchCredsAt_not_slash _ _ _ (by decide))]
  rw [redactChars_cons_of_none _ _ (matchCredsAt_not_slash _ _ _ (by decide))]
  rw [redactChars_cons_of_none _ _ (matchCredsAt_not_slash _ _ _ (by decide))]
  rw [redactChars_cons_of_none _ _ (matchCredsAt_not_slash _ _ _ (by decide))]
  rw [redactChars_cons_of_none _ _ (matchCredsAt_not_slash _ _ _ (by decide))]
  rw [redactChars_cons_of_none _ _ (matchCredsAt_not_slash _ _ _ (by decide))]
  rw [redactChars_cons_of_none _ _ (matchCredsAt_not_slash _ _ _ (by decide))]
  rw [redactChars_cons_of_some _ _ rest (matchCredsAt_slashes creds rest h1 h2)]
  rfl

theorem prefix_of_append_at (creds a b : List Char) (h : '@' ∉ creds)
    (hp : creds <+: a ++ '@' :: b) : creds <+: a := by
  induction a generalizing creds with
  | nil =>
    cases creds with
    | nil => exact List.nil_prefix
    | cons c cr =>
      obtain ⟨t, ht⟩ := hp
      rw [List.nil_append, List.cons_append] at ht
      injection ht with hh1 hh2
      exact absurd (hh1 ▸ List.mem_cons_self c cr) h
  | cons x a2 ih =>
    cases creds with
    | nil => exact List.nil_prefix
    | cons c cr =>
      obtain ⟨t, ht⟩ := hp
      rw [List.cons_append, List.cons_append] at ht
      injection ht with hh1 hh2
      subst hh1
      have hcr : '@' ∉ cr := fun hm => h (List.mem_cons_of_mem c hm)
      obtain ⟨t2, ht2⟩ := ih cr hcr ⟨t, hh2⟩
      exact ⟨t2, by rw [List.cons_append, ht2]⟩

theorem infixAppendAt (creds a b : List Char) (h : '@' ∉ creds) (hne : creds ≠ [])
    (hi : creds <:+: a ++ '@' :: b) : creds <:+: a ∨ creds <:+: b := by
  induction a with
  | nil =>
    rw [List.nil_append] at hi
    rcases List.infix_cons_iff.mp hi with hp | hi2
    · have : creds <+: ([] : List Char) ++ '@' :: b := by rw [List.nil_append]; exact hp
      have := prefix_of_append_at creds [] b h this
      exact absurd (List.prefix_nil.mp this) hne
    · exact Or.inr hi2
  | cons x a2 ih =>
    rw [List.cons_append] at hi
    rcases List.infix_cons_iff.mp hi with hp | hi2
    · left
      have : creds <+: (x :: a2) ++ '@' :: b := by rw [List.cons_append]; exact hp
      exact (prefix_of_append_at creds (x :: a2) b h this).isInfix
    · rcases ih hi2 with hA | hB
      · exact Or.inl (List.infix_cons hA)
      · exact Or.inr hB

/-- C5: for every connection target of the standard credentialed shape
`mongodb://<credentials>@<rest>` (the credentials free of line terminators,
neither part containing a further at-sign), the redaction
`uri.replace(/\/\/.*@/, "//***@")` used by `mongodb_list_databases`,
`mongodb_verify_connection` and the connection-failure diagnostic replaces
the credentials portion by the fixed placeholder, so — whenever the
credential text does not coincidentally occur inside the remainder of the
target or inside the fixed prefix `mongodb://***` — the emitted URI never
contains the raw credentials substring.  Both emission sites are shown to
carry exactly `redactUri` of the configured target. -/
theorem credentials_redacted :
    ∀ (creds rest : List Char),
    (∀ c ∈ creds, isLineTerm c = false) → '@' ∉ creds → '@' ∉ rest → creds ≠ [] →
    ¬ creds <:+: ("mongodb://***").toList → ¬ creds <:+: rest →
    redactChars (("mongodb://").toList ++ creds ++ '@' :: rest)
        = ("mongodb://***@").toList ++ rest
  ∧ ¬ creds <:+: redactChars (("mongodb://").toList ++ creds ++ '@' :: rest)
  ∧ (∀ (uriS dbName : String) (dbs : List (String × Int × Bool)),
      jsGet (listDatabasesPayload uriS dbName dbs) ("connectionUri")
        = JSVal.string (redactUri uriS))
  ∧ (∀ (uriS dbName m : String) (req : ToolRequest) (store : StoreBehavior),
      (dispatchTool uriS dbName (ConnSt.mk false false) (ConnectOutcome.connectFails m)
          req store).2.1
        = Envelope.connFailure ("MongoDB connection failed: " ++ m) (redactUri uriS) dbName) := by
  intro creds rest h1 h2 h3 h4 h5 h6
  have heq := redactChars_mongo_shape creds rest h1 h3
  refine ⟨heq, ?_, fun _ _ _ => rfl, fun _ _ _ _ _ => rfl⟩
  rw [heq]
  intro hinf
  have hsplit : ("mongodb://***@").toList ++ rest
      = ("mongodb://***").toList ++ '@' :: rest := rfl
  rw [hsplit] at hinf
  rcases infixAppendAt creds _ rest h2 h4 hinf with hA | hB
  · exact h5 hA
  · exact h6 hB

/-- Witness for C5 at a concrete credentialed connection target: the
credentials `admin:hunter2` are replaced by the placeholder and do not occur
in the redacted output. -/
theorem credentials_redacted_witness :
    redactChars (("mongodb://").toList ++ ("admin:hunter2").toList
        ++ '@' :: ("localhost:27017/mycompany").toList)
      = ("mongodb://***@").toList ++ ("localhost:27017/mycompany").toList
  ∧ ¬ ("admin:hunter2").toList <:+:
      redactChars (("mongodb://").toList ++ ("admin:hunter2").toList
        ++ '@' :: ("localhost:27017/mycompany").toList) := by
  have h := credentials_redacted (("admin:hunter2").toList)
    (("localhost:27017/mycompany").toList)
    (by decide) (by decide) (by decide) (by decide) (by decide) (by decide)
  exact ⟨h.1, h.2.1⟩
